import Mathlib

/-- Boolean substring test on character lists, modelling Python's `in` on strings. -/
def subSeq : List Char → List Char → Bool
  | p, [] => p.isEmpty
  | p, c :: cs => p.isPrefixOf (c :: cs) || subSeq p cs

/-- Python `needle in hay` for strings. -/
def substr (needle hay : String) : Bool :=
  subSeq needle.toList hay.toList

/-- A cell of the ensemble table: a floating value or the NaN missing marker. -/
abbrev Cell := Option ℚ

instance {ε α : Type} [DecidableEq ε] [DecidableEq α] : DecidableEq (Except ε α) :=
  fun x y =>
    match x, y with
    | .ok a, .ok b =>
      if h : a = b then isTrue (by rw [h]) else isFalse fun he => h (Except.ok.inj he)
    | .error a, .error b =>
      if h : a = b then isTrue (by rw [h]) else isFalse fun he => h (Except.error.inj he)
    | .ok _, .error _ => isFalse fun he => Except.noConfusion he
    | .error _, .ok _ => isFalse fun he => Except.noConfusion he

/-- Shallow embedding of a pandas DataFrame with named columns: `cols` are the
column labels and each row lists the cells in column order.  Timestamps are the
row positions. -/
structure DataFrame where
  cols : List String
  rows : List (List Cell)
deriving DecidableEq, Repr

/-- Indices of the columns matching `variable in col and 'member' in col`. -/
def memberColIdx (df : DataFrame) (vname : String) : List ℕ :=
  (List.range df.cols.length).filter fun j =>
    substr vname (df.cols.getD j "") && substr "member" (df.cols.getD j "")

/-- The defined (non-NaN) values of a row restricted to the given column indices. -/
def validCells (r : List Cell) (cols : List ℕ) : List ℚ :=
  cols.filterMap fun j => r.getD j none

/-- Minimum with NaN skipping, as pandas `min(axis=1)`: `none` on an all-NaN row. -/
def rowMin : List ℚ → Option ℚ
  | [] => none
  | x :: xs => some (xs.foldl min x)

/-- Maximum with NaN skipping, as pandas `max(axis=1)`. -/
def rowMax : List ℚ → Option ℚ
  | [] => none
  | x :: xs => some (xs.foldl max x)

/-- Mean with NaN skipping, as pandas `mean(axis=1)`. -/
def rowMean (vs : List ℚ) : Option ℚ :=
  if vs.isEmpty then none else some (vs.sum / vs.length)

/-- Sample variance (ddof = 1), the square of pandas `std(axis=1)`.  The code
takes the square root of this quantity; we track the square, which is defined
(non-NaN) exactly when the code's std is, and is zero exactly when it is. -/
def sampleVar (vs : List ℚ) : Option ℚ :=
  if vs.length < 2 then none
  else
    some ((vs.map fun x => (x - vs.sum / vs.length) ^ 2).sum / ((vs.length : ℚ) - 1))

/-- Linear ("type 7") interpolation at fractional index `h` into the sorted
sample `xs`, as numpy/pandas `quantile` uses: with `j = ⌊h⌋`,
`x_j + (h − j)·(x_(j+1) − x_j)`. -/
def interp (xs : List ℚ) (h : ℚ) : ℚ :=
  xs.getD (⌊h⌋).toNat 0 +
    (h - ((⌊h⌋).toNat : ℚ)) * (xs.getD ((⌊h⌋).toNat + 1) 0 - xs.getD (⌊h⌋).toNat 0)

/-- pandas `quantile(q, axis=1)` over the defined values: sort them and
interpolate at index `q·(n−1)`; NaN when no value is defined. -/
def quantileOf (vs : List ℚ) (q : ℚ) : Option ℚ :=
  if vs.isEmpty then none
  else some (interp (List.insertionSort (· ≤ ·) vs) (q * ((vs.length : ℚ) - 1)))

/-- One row of the statistics DataFrame built by `calculate_statistics`. -/
structure StatsRow where
  min : Option ℚ
  max : Option ℚ
  mean : Option ℚ
  median : Option ℚ
  stdSq : Option ℚ
  p10 : Option ℚ
  p25 : Option ℚ
  p75 : Option ℚ
  p90 : Option ℚ
deriving DecidableEq, Repr

/-- The statistics of one row of the table over the member columns `cols`. -/
def statsRowOf (cols : List ℕ) (r : List Cell) : StatsRow :=
  let vs := validCells r cols
  { min := rowMin vs
    max := rowMax vs
    mean := rowMean vs
    median := quantileOf vs (1/2)
    stdSq := sampleVar vs
    p10 := quantileOf vs (1/10)
    p25 := quantileOf vs (1/4)
    p75 := quantileOf vs (3/4)
    p90 := quantileOf vs (9/10) }

/-- StatisticsCalculator.calculate_statistics: selects the columns whose name
contains both the variable and `member`, raises
`ValueError("No columns found for variable ...")` when none match, and
otherwise computes min/max/mean/median/std/percentiles per timestamp with
NaN-skipping reductions. -/
def calculate_statistics (df : DataFrame) (vname : String) :
    Except String (List StatsRow) :=
  let cols := memberColIdx df vname
  if cols.isEmpty then .error "No columns found for variable"
  else .ok (df.rows.map (statsRowOf cols))

/-- The classification cascade of StatisticsCalculator.calculate_trend. -/
def trendLabel (rate : ℚ) : String :=
  if |rate| < 1/2 then "stable"
  else if rate > 2 then "rapidly_rising"
  else if rate > 1/2 then "rising"
  else if rate < -2 then "rapidly_falling"
  else "falling"

/-- StatisticsCalculator.calculate_trend: the first `window` points are
`stable`; afterwards the rate is `(series[i] − series[i−window]) / window`
and classified by `trendLabel`. -/
def calculate_trend (series : List ℚ) (window : ℕ) : List String :=
  (List.range series.length).map fun i =>
    if i < window then "stable"
    else trendLabel ((series.getD i 0 - series.getD (i - window) 0) / (window : ℚ))

/-- ProbabilityAnalyzer.calculate_probability: selects the member columns for
the variable, raises `ValueError` when none match, and otherwise returns per
timestamp `meets_condition.sum(axis=1) / len(cols)`.  A NaN cell compares
false under the condition, so it counts toward the denominator but never the
numerator. -/
def calculate_probability (df : DataFrame) (vname : String) (cond : ℚ → Bool) :
    Except String (List ℚ) :=
  let cols := memberColIdx df vname
  if cols.isEmpty then .error "No columns found for variable"
  else
    .ok (df.rows.map fun r =>
      ((cols.countP fun j =>
          match r.getD j none with
          | some x => cond x
          | none => false : ℕ) : ℚ) / (cols.length : ℚ))

/-- Modelled from the spec: the Probability Result the spec requires —
`(count of members satisfying predicate) / (count of members with a defined
value)`, with undefined members excluded from numerator and denominator and an
undefined (not zero) result when no member has a defined value. -/
def probabilitySpecified (df : DataFrame) (vname : String) (cond : ℚ → Bool) :
    Except String (List (Option ℚ)) :=
  let cols := memberColIdx df vname
  if cols.isEmpty then .error "No columns found for variable"
  else
    .ok (df.rows.map fun r =>
      let valid := validCells r cols
      if valid.isEmpty then none
      else some (((valid.countP cond : ℕ) : ℚ) / (valid.length : ℚ)))

/-- An hourly DataFrame whose row index carries a calendar date (abstracted to
a natural number), as used by `hourly_df.index.date == date` masking. -/
structure HourlyFrame where
  cols : List String
  rows : List (ℕ × List Cell)
deriving DecidableEq, Repr

/-- Indices of the `snowfall_calculated` member columns. -/
def snowColIdx (hdf : HourlyFrame) : List ℕ :=
  (List.range hdf.cols.length).filter fun j =>
    substr "snowfall_calculated" (hdf.cols.getD j "") &&
      substr "member" (hdf.cols.getD j "")

/-- The defined hourly values of column `j` over the given rows. -/
def colValid (dayRows : List (List Cell)) (j : ℕ) : List ℚ :=
  dayRows.filterMap fun r => r.getD j none

/-- EnhancedForecastGenerator._aggregate_daily_snow: restrict the hourly rows
to the date, then for each member column with at least one defined value take
the sum and the max of its defined values, and finally average those
per-member aggregates across members (`np.mean(totals)`, `np.mean(max_hourlys)`);
0 when the day or the column set is empty. -/
def aggregate_daily_snow (hdf : HourlyFrame) (date : ℕ) : ℚ × ℚ :=
  let dayRows := (hdf.rows.filter fun p => p.1 == date).map Prod.snd
  if dayRows.isEmpty then (0, 0)
  else
    let cols := snowColIdx hdf
    if cols.isEmpty then (0, 0)
    else
      let totals := cols.filterMap fun j =>
        match colValid dayRows j with
        | [] => none
        | v :: vs => some ((v :: vs).sum : ℚ)
      let maxHourlys := cols.filterMap fun j =>
        match colValid dayRows j with
        | [] => none
        | v :: vs => some (vs.foldl max v)
      ((if totals.isEmpty then 0 else totals.sum / totals.length),
       (if maxHourlys.isEmpty then 0 else maxHourlys.sum / maxHourlys.length))

/-- Aggregate-then-average-across-members, stated from the spec's words: per
member, sum (resp. max) that member's defined hourly snowfall values over the
day, then average the per-member aggregates across members. -/
def dailySnowAggThenAvg (hdf : HourlyFrame) (date : ℕ) : ℚ × ℚ :=
  let dayRows := (hdf.rows.filter fun p => p.1 == date).map Prod.snd
  if dayRows.isEmpty then (0, 0)
  else
    let cols := snowColIdx hdf
    if cols.isEmpty then (0, 0)
    else
      let perMember := cols.filterMap fun j =>
        match colValid dayRows j with
        | [] => none
        | v :: vs => some (((v :: vs).sum : ℚ), vs.foldl max v)
      ((if perMember.isEmpty then 0
        else (perMember.map Prod.fst).sum / perMember.length),
       (if perMember.isEmpty then 0
        else (perMember.map Prod.snd).sum / perMember.length))

/-- The inverted order the spec warns against: first average the defined member
values within each hour, then sum (resp. max) those hourly means over the day. -/
def dailySnowAvgThenAgg (hdf : HourlyFrame) (date : ℕ) : ℚ × ℚ :=
  let dayRows := (hdf.rows.filter fun p => p.1 == date).map Prod.snd
  let cols := snowColIdx hdf
  let hourlyMeans := dayRows.filterMap fun r =>
    match validCells r cols with
    | [] => none
    | v :: vs => some ((((v :: vs).sum : ℚ)) / ((v :: vs).length : ℚ))
  (hourlyMeans.sum,
   (match hourlyMeans with
    | [] => 0
    | m :: ms => ms.foldl max m))

/-- An IEEE-style value as produced by pandas float division: a finite number,
infinity, or NaN. -/
inductive FloatVal where
  | num : ℚ → FloatVal
  | inf : FloatVal
  | nan : FloatVal
deriving DecidableEq, Repr

/-- The elif chain of ModelComparison._identify_models applied to one column
name. -/
def firstModelOf (c : String) : Option String :=
  if substr "ecmwf_ifs025" c then some "ecmwf_ifs025"
  else if substr "ecmwf_aifs025" c then some "ecmwf_aifs025"
  else if substr "gem_global" c then some "gem_global"
  else if substr "gfs_seamless" c then some "gfs_seamless"
  else none

/-- ModelComparison._identify_models: the set of known models found among the
member columns of the variable, returned sorted; the four candidate names are
listed here in their alphabetical order. -/
def identifyModels (df : DataFrame) (vname : String) : List String :=
  ["ecmwf_aifs025", "ecmwf_ifs025", "gem_global", "gfs_seamless"].filter fun m =>
    df.cols.any fun c =>
      substr vname c && substr "member" c && (firstModelOf c == some m)

/-- Per-model mean series: for each identified model, the NaN-skipping mean of
its member columns at each timestamp (`model_means` in compare_models). -/
def modelMeansOf (df : DataFrame) (vname : String) :
    List (String × List (Option ℚ)) :=
  (identifyModels df vname).filterMap fun m =>
    let mcols := (List.range df.cols.length).filter fun j =>
      substr m (df.cols.getD j "") && substr vname (df.cols.getD j "") &&
        substr "member" (df.cols.getD j "")
    if mcols.isEmpty then none
    else some (m, df.rows.map fun r => rowMean (validCells r mcols))

/-- The defined per-model means at timestamp `i` (cross-model skipna row). -/
def meansAt (mm : List (String × List (Option ℚ))) (i : ℕ) : List ℚ :=
  mm.filterMap fun p => p.2.getD i none

/-- The float `std / |mean|` of compare_models, with no guard, exactly as IEEE
division behaves: NaN when std or mean is NaN, NaN on 0/0, +∞ on positive/0.
Since `std = √variance`, the finite branch carries the square `variance/mean²`
(zero, positivity, NaN-ness and infinity-ness agree with the unsquared cv). -/
def cvOfRow (vs : List ℚ) : FloatVal :=
  match sampleVar vs, rowMean vs with
  | some v, some m =>
    if m = 0 then (if v = 0 then .nan else .inf) else .num (v / m ^ 2)
  | _, _ => .nan

/-- One row of the comparison DataFrame of compare_models. -/
structure CompRow where
  mean : Option ℚ
  stdSq : Option ℚ
  min : Option ℚ
  max : Option ℚ
  range : Option ℚ
  cv : FloatVal
deriving DecidableEq, Repr

/-- ModelComparison.compare_models: raises
`ValueError("Need at least 2 models for comparison")` when fewer than 2 models
are identified; otherwise returns the per-timestamp cross-model reduction of
the per-model means together with `model_means`. -/
def compare_models (df : DataFrame) (vname : String) :
    Except String (List CompRow × List (String × List (Option ℚ))) :=
  let models := identifyModels df vname
  if models.length < 2 then .error "Need at least 2 models for comparison"
  else
    let mm := modelMeansOf df vname
    .ok ((List.range df.rows.length).map fun i =>
      let vs := meansAt mm i
      { mean := rowMean vs
        stdSq := sampleVar vs
        min := rowMin vs
        max := rowMax vs
        range :=
          match rowMax vs, rowMin vs with
          | some a, some b => some (a - b)
          | _, _ => none
        cv := cvOfRow vs }, mm)

/-- The outlier test `z_scores.abs() > threshold` with
`z = (x − μ)/std`: false whenever `z` is NaN (either input NaN, or 0/0 when
std = 0 and x = μ), true on ±∞, and on the finite branch the equivalent
squared comparison `(x − μ)² > threshold²·variance` (std = √variance > 0). -/
def outlierFlag (x μ v : Option ℚ) (thr : ℚ) : Bool :=
  match x, μ, v with
  | some x, some μ, some v =>
    if v = 0 then decide (x ≠ μ) else decide ((x - μ) ^ 2 > thr ^ 2 * v)
  | _, _, _ => false

/-- ModelComparison.identify_outliers: no model-count check; for each model and
timestamp, flag `|z| > threshold` where `z = (model_mean − overall_mean) /
overall_std` over the per-model means (NaN z-scores compare false). -/
def identify_outliers (mm : List (String × List (Option ℚ)))
    (threshold : ℚ) : List (String × List Bool) :=
  let n := ((mm.head?).map fun p => p.2.length).getD 0
  mm.map fun p =>
    (p.1, (List.range n).map fun i =>
      let vs := meansAt mm i
      outlierFlag (p.2.getD i none) (rowMean vs) (sampleVar vs) threshold)

/-- AdvancedSnowFormulas.wet_bulb_temperature, the Stull closed-form
approximation with `RH` clamped to [0, 100] (`np.clip`). -/
noncomputable def wet_bulb_temperature (temp rh : ℝ) : ℝ :=
  let r := min (max rh 0) 100
  temp * Real.arctan (0.151977 * Real.sqrt (r + 8.313659)) +
    Real.arctan (temp + r) - Real.arctan (r - 1.676331) +
    0.00391838 * r ^ (1.5 : ℝ) * Real.arctan (0.023101 * r) - 4.686035

/-- AdvancedSnowFormulas.snow_probability: the logistic
`1 / (1 + exp(α·(Tw − β)))`; defaults α = 1.2, β = 0.5. -/
noncomputable def snow_probability (wet_bulb alpha beta : ℝ) : ℝ :=
  1 / (1 + Real.exp (alpha * (wet_bulb - beta)))

/-- AdvancedSnowFormulas.base_slr: the Gaussian peak
`r_min + (r_max − r_min)·exp(−(T − t_peak)²/(2σ²))`. -/
noncomputable def base_slr (temp rmin rmax tpeak sigma : ℝ) : ℝ :=
  rmin + (rmax - rmin) * Real.exp (-(temp - tpeak) ^ 2 / (2 * sigma ^ 2))

/-- AdvancedSnowFormulas.humidity_factor: `1 + γ·(50 − RH)/50` with `RH`
clamped to [0, 100] and the factor clipped to [0.8, 1.2]. -/
noncomputable def humidity_factor (rh gamma : ℝ) : ℝ :=
  let r := min (max rh 0) 100
  min (max (1 + gamma * (50 - r) / 50) 0.8) 1.2

/-- AdvancedSnowFormulas.rate_factor (scalar branch): the rate is
`precip/duration` when both are positive and 0 otherwise; the factor is
`1/(1 + δ·rate)`. -/
noncomputable def rate_factor (precip duration delta : ℝ) : ℝ :=
  let rate := if 0 < duration ∧ 0 < precip then precip / duration else 0
  1 / (1 + delta * rate)

/-- AdvancedSnowFormulas.calculate_snowfall: the full pipeline
`max(0, precip·SLR_base·f_RH·f_rate·p_snow/10)`; `duration = none` models the
optional argument left out (`f_rate = 1`). -/
noncomputable def calculate_snowfall (temp rh precip : ℝ) (duration : Option ℝ)
    (alpha beta rmin rmax tpeak sigma gamma delta : ℝ) : ℝ :=
  let tw := wet_bulb_temperature temp rh
  let psnow := snow_probability tw alpha beta
  let slrBase := base_slr temp rmin rmax tpeak sigma
  let frh := humidity_factor rh gamma
  let frate :=
    match duration with
    | some d => rate_factor precip d delta
    | none => 1
  max (precip * (slrBase * frh * frate) * psnow / 10) 0

/-- The cv value that ModelComparison.get_comparison_dict reads from the
comparison row at a timestamp and stores as `coefficient_variation` in its
result, unchanged. -/
def coefficientVariationAt (comp : List CompRow) (i : ℕ) : FloatVal :=
  (comp.getD i ⟨none, none, none, none, none, .nan⟩).cv

/-- Sample ensemble table: three members; the second timestamp has no defined
value, the third has exactly one. -/
def exStatsDf : DataFrame :=
  ⟨["temperature_2m_member0", "temperature_2m_member1", "temperature_2m_member2"],
   [[some 3, some 1, some 2], [none, none, none], [none, some 7, none]]⟩

/-- Probability sample table: two member columns; at the first timestamp one
member is NaN and the other satisfies the predicate, at the second both are
NaN. -/
def exProbDf : DataFrame :=
  ⟨["temperature_2m_member0", "temperature_2m_member1"],
   [[none, some 5], [none, none]]⟩

/-- Hourly sample: two members over a two-hour day; member 0 snows 10 then 0,
member 1 snows 0 then 10. -/
def exHourly : HourlyFrame :=
  ⟨["snowfall_calculated_member0", "snowfall_calculated_member1"],
   [(0, [some 10, some 0]), (0, [some 0, some 10])]⟩

/-- Comparison sample table: two models, one member each, both reporting 0 at
the single timestamp, so the cross-model mean and std are both 0. -/
def exCmpDf : DataFrame :=
  ⟨["ecmwf_ifs025_temperature_2m_member0", "gem_global_temperature_2m_member0"],
   [[some 0, some 0]]⟩

lemma foldl_min_le_init (xs : List ℚ) (a : ℚ) : xs.foldl min a ≤ a := by
  induction xs generalizing a with
  | nil => exact le_refl a
  | cons x xs ih => exact le_trans (ih (min a x)) (min_le_left a x)

lemma foldl_min_le_mem {x : ℚ} (xs : List ℚ) (a : ℚ) (hx : x ∈ xs) :
    xs.foldl min a ≤ x := by
  induction xs generalizing a with
  | nil => cases hx
  | cons y ys ih =>
    rcases List.mem_cons.mp hx with h | h
    · subst h
      exact le_trans (foldl_min_le_init ys (min a x)) (min_le_right a x)
    · exact ih (min a y) h

lemma init_le_foldl_max (xs : List ℚ) (a : ℚ) : a ≤ xs.foldl max a := by
  induction xs generalizing a with
  | nil => exact le_refl a
  | cons x xs ih => exact le_trans (le_max_left a x) (ih (max a x))

lemma mem_le_foldl_max {x : ℚ} (xs : List ℚ) (a : ℚ) (hx : x ∈ xs) :
    x ≤ xs.foldl max a := by
  induction xs generalizing a with
  | nil => cases hx
  | cons y ys ih =>
    rcases List.mem_cons.mp hx with h | h
    · subst h
      exact le_trans (le_max_right a x) (init_le_foldl_max ys (max a x))
    · exact ih (max a y) h

lemma rowMin_le_of_mem {vs : List ℚ} {x : ℚ} (hx : x ∈ vs) :
    ∃ m, rowMin vs = some m ∧ m ≤ x := by
  cases vs with
  | nil => cases hx
  | cons v vs =>
    refine ⟨vs.foldl min v, rfl, ?_⟩
    rcases List.mem_cons.mp hx with h | h
    · subst h; exact foldl_min_le_init vs x
    · exact foldl_min_le_mem vs v h

lemma le_rowMax_of_mem {vs : List ℚ} {x : ℚ} (hx : x ∈ vs) :
    ∃ m, rowMax vs = some m ∧ x ≤ m := by
  cases vs with
  | nil => cases hx
  | cons v vs =>
    refine ⟨vs.foldl max v, rfl, ?_⟩
    rcases List.mem_cons.mp hx with h | h
    · subst h; exact init_le_foldl_max vs x
    · exact mem_le_foldl_max vs v h

lemma getD_mem_of_lt (xs : List ℚ) {k : ℕ} (hk : k < xs.length) :
    xs.getD k 0 ∈ xs := by
  rw [List.getD_eq_getElem?_getD, List.getElem?_eq_getElem hk, Option.getD_some]
  exact List.getElem_mem hk

lemma sorted_getD_le (xs : List ℚ) (hs : xs.Sorted (· ≤ ·)) :
    ∀ {i k : ℕ}, i ≤ k → k < xs.length → xs.getD i 0 ≤ xs.getD k 0 := by
  induction xs with
  | nil => intro i k _ hk; simp at hk
  | cons x xs ih =>
    intro i k hik hk
    rcases List.sorted_cons.mp hs with ⟨hx, hxs⟩
    cases i with
    | zero =>
      cases k with
      | zero => exact le_refl _
      | succ k =>
        simp only [List.getD_cons_zero, List.getD_cons_succ]
        exact hx _ (getD_mem_of_lt xs (by simpa using hk))
    | succ i =>
      cases k with
      | zero => omega
      | succ k =>
        simp only [List.getD_cons_succ]
        exact ih hxs (Nat.succ_le_succ_iff.mp hik) (by simpa using hk)

lemma interp_zero (xs : List ℚ) : interp xs 0 = xs.getD 0 0 := by
  simp [interp]

lemma interp_top (xs : List ℚ) (hn : 1 ≤ xs.length) :
    interp xs ((xs.length : ℚ) - 1) = xs.getD (xs.length - 1) 0 := by
  have hcast : ((xs.length : ℚ) - 1) = (((xs.length : ℤ) - 1 : ℤ) : ℚ) := by
    push_cast
    ring
  have hfl : ⌊(xs.length : ℚ) - 1⌋ = (xs.length : ℤ) - 1 := by
    rw [hcast, Int.floor_intCast]
  have htn : ((xs.length : ℤ) - 1).toNat = xs.length - 1 := by omega
  rw [interp, hfl, htn]
  have hγ : ((xs.length : ℚ) - 1) - ((xs.length - 1 : ℕ) : ℚ) = 0 := by
    rw [Nat.cast_sub hn]
    push_cast
    ring
  rw [hγ]
  ring

lemma interp_mono (xs : List ℚ) (hs : xs.Sorted (· ≤ ·)) {h1 h2 : ℚ}
    (h10 : 0 ≤ h1) (h12 : h1 ≤ h2) (h2n : h2 ≤ (xs.length : ℚ) - 1) :
    interp xs h1 ≤ interp xs h2 := by
  have h20 : 0 ≤ h2 := le_trans h10 h12
  have hn1 : 1 ≤ xs.length := by
    by_contra hn
    have h0 : xs.length = 0 := by omega
    rw [h0] at h2n
    norm_num at h2n
    linarith
  set n := xs.length with hn
  set j1 := (⌊h1⌋).toNat with hj1def
  set j2 := (⌊h2⌋).toNat with hj2def
  have hc1 : (j1 : ℚ) = (⌊h1⌋ : ℚ) := by
    rw [hj1def]
    exact_mod_cast Int.toNat_of_nonneg (Int.floor_nonneg.2 h10)
  have hc2 : (j2 : ℚ) = (⌊h2⌋ : ℚ) := by
    rw [hj2def]
    exact_mod_cast Int.toNat_of_nonneg (Int.floor_nonneg.2 h20)
  have hj1h : (j1 : ℚ) ≤ h1 := by rw [hc1]; exact Int.floor_le h1
  have hh1j : h1 < (j1 : ℚ) + 1 := by rw [hc1]; exact Int.lt_floor_add_one h1
  have hj2h : (j2 : ℚ) ≤ h2 := by rw [hc2]; exact Int.floor_le h2
  have hj12 : j1 ≤ j2 := by
    have := Int.floor_le_floor (α := ℚ) h12
    omega
  have hj2top : (j2 : ℚ) ≤ (n : ℚ) - 1 := le_trans hj2h h2n
  have hj2n : j2 < n := by
    have : (j2 : ℚ) < (n : ℚ) := by linarith
    exact_mod_cast this
  rcases eq_or_lt_of_le hj12 with heq | hlt
  · -- same interpolation bucket
    show xs.getD j1 0 + (h1 - (j1 : ℚ)) * (xs.getD (j1 + 1) 0 - xs.getD j1 0) ≤
      xs.getD j2 0 + (h2 - (j2 : ℚ)) * (xs.getD (j2 + 1) 0 - xs.getD j2 0)
    rw [← heq]
    by_cases hj11 : j1 + 1 < n
    · have hΔ : xs.getD j1 0 ≤ xs.getD (j1 + 1) 0 :=
        sorted_getD_le xs hs (Nat.le_succ j1) hj11
      have := mul_le_mul_of_nonneg_right (by linarith : h1 - (j1 : ℚ) ≤ h2 - (j1 : ℚ))
        (by linarith : (0 : ℚ) ≤ xs.getD (j1 + 1) 0 - xs.getD j1 0)
      linarith
    · have hj1eq : j1 = n - 1 := by omega
      have hj1c : (j1 : ℚ) = (n : ℚ) - 1 := by
        rw [hj1eq, Nat.cast_sub hn1]
        norm_num
    -- with j1 at the top index, h1 = h2 = n − 1 and the two sides agree
      have h1h2 : h1 = h2 := by
        have hup : h2 ≤ (j1 : ℚ) := by rw [hj1c]; exact h2n
        have hdn : (j1 : ℚ) ≤ h1 := hj1h
        linarith
      rw [h1h2]
  · -- strictly later bucket: pass through the order statistics
    have hj11n : j1 + 1 ≤ j2 := hlt
    have hj11 : j1 + 1 < n := lt_of_le_of_lt hj11n hj2n
    have hΔ1 : xs.getD j1 0 ≤ xs.getD (j1 + 1) 0 :=
      sorted_getD_le xs hs (Nat.le_succ j1) hj11
    have step1 : interp xs h1 ≤ xs.getD (j1 + 1) 0 := by
      show xs.getD j1 0 + (h1 - (j1 : ℚ)) * (xs.getD (j1 + 1) 0 - xs.getD j1 0) ≤
        xs.getD (j1 + 1) 0
      nlinarith [mul_nonneg (by linarith : (0 : ℚ) ≤ 1 - (h1 - (j1 : ℚ)))
        (by linarith : (0 : ℚ) ≤ xs.getD (j1 + 1) 0 - xs.getD j1 0)]
    have step2 : xs.getD (j1 + 1) 0 ≤ xs.getD j2 0 :=
      sorted_getD_le xs hs hj11n hj2n
    have step3 : xs.getD j2 0 ≤ interp xs h2 := by
      show xs.getD j2 0 ≤
        xs.getD j2 0 + (h2 - (j2 : ℚ)) * (xs.getD (j2 + 1) 0 - xs.getD j2 0)
      by_cases hj21 : j2 + 1 < n
      · have hΔ2 : xs.getD j2 0 ≤ xs.getD (j2 + 1) 0 :=
          sorted_getD_le xs hs (Nat.le_succ j2) hj21
        nlinarith [mul_nonneg (by linarith : (0 : ℚ) ≤ h2 - (j2 : ℚ))
          (by linarith : (0 : ℚ) ≤ xs.getD (j2 + 1) 0 - xs.getD j2 0)]
      · have hj2eq : j2 = n - 1 := by omega
        have hj2c : (j2 : ℚ) = (n : ℚ) - 1 := by
          rw [hj2eq, Nat.cast_sub hn1]
          norm_num
        have : h2 = (j2 : ℚ) := by rw [hj2c]; linarith
        rw [this]
        ring_nf
        exact le_refl _
    exact le_trans step1 (le_trans step2 step3)

lemma quantileOf_eq (vs : List ℚ) (hne : vs ≠ []) (q : ℚ) :
    quantileOf vs q =
      some (interp (List.insertionSort (· ≤ ·) vs) (q * ((vs.length : ℚ) - 1))) := by
  simp [quantileOf, hne]

lemma quantile_le_quantile (vs : List ℚ) (hne : vs ≠ []) {q1 q2 : ℚ}
    (h0 : 0 ≤ q1) (h12 : q1 ≤ q2) (h21 : q2 ≤ 1) :
    ∃ a b, quantileOf vs q1 = some a ∧ quantileOf vs q2 = some b ∧ a ≤ b := by
  have hlen : (List.insertionSort (· ≤ ·) vs).length = vs.length :=
    List.length_insertionSort _ vs
  have hsort : (List.insertionSort (· ≤ ·) vs).Sorted (· ≤ ·) :=
    List.sorted_insertionSort _ vs
  have hn1 : 1 ≤ vs.length := List.length_pos.mpr hne
  have hn1Q : (1 : ℚ) ≤ (vs.length : ℚ) := by exact_mod_cast hn1
  refine ⟨_, _, quantileOf_eq vs hne q1, quantileOf_eq vs hne q2, ?_⟩
  apply interp_mono _ hsort
  · exact mul_nonneg h0 (by linarith)
  · exact mul_le_mul_of_nonneg_right h12 (by linarith)
  · rw [hlen]
    have := mul_le_mul_of_nonneg_right h21 (by linarith : (0 : ℚ) ≤ (vs.length : ℚ) - 1)
    linarith

lemma rowMin_le_quantile (vs : List ℚ) (hne : vs ≠ []) {q : ℚ}
    (h0 : 0 ≤ q) (h1 : q ≤ 1) :
    ∃ m a, rowMin vs = some m ∧ quantileOf vs q = some a ∧ m ≤ a := by
  have hlen : (List.insertionSort (· ≤ ·) vs).length = vs.length :=
    List.length_insertionSort _ vs
  have hsort : (List.insertionSort (· ≤ ·) vs).Sorted (· ≤ ·) :=
    List.sorted_insertionSort _ vs
  have hn1 : 1 ≤ vs.length := List.length_pos.mpr hne
  have hn1Q : (1 : ℚ) ≤ (vs.length : ℚ) := by exact_mod_cast hn1
  have hpos : 0 < (List.insertionSort (· ≤ ·) vs).length := by omega
  have hmem : (List.insertionSort (· ≤ ·) vs).getD 0 0 ∈ vs :=
    (List.perm_insertionSort (· ≤ ·) vs).mem_iff.mp
      (getD_mem_of_lt _ hpos)
  obtain ⟨m, hm, hmx⟩ := rowMin_le_of_mem hmem
  refine ⟨m, _, hm, quantileOf_eq vs hne q, ?_⟩
  have hmono : interp (List.insertionSort (· ≤ ·) vs) 0 ≤
      interp (List.insertionSort (· ≤ ·) vs) (q * ((vs.length : ℚ) - 1)) := by
    apply interp_mono _ hsort (le_refl 0) (mul_nonneg h0 (by linarith))
    rw [hlen]
    have := mul_le_mul_of_nonneg_right h1 (by linarith : (0 : ℚ) ≤ (vs.length : ℚ) - 1)
    linarith
  rw [interp_zero] at hmono
  exact le_trans hmx hmono

lemma quantile_le_rowMax (vs : List ℚ) (hne : vs ≠ []) {q : ℚ}
    (h0 : 0 ≤ q) (h1 : q ≤ 1) :
    ∃ a m, quantileOf vs q = some a ∧ rowMax vs = some m ∧ a ≤ m := by
  have hlen : (List.insertionSort (· ≤ ·) vs).length = vs.length :=
    List.length_insertionSort _ vs
  have hsort : (List.insertionSort (· ≤ ·) vs).Sorted (· ≤ ·) :=
    List.sorted_insertionSort _ vs
  have hn1 : 1 ≤ vs.length := List.length_pos.mpr hne
  have hn1Q : (1 : ℚ) ≤ (vs.length : ℚ) := by exact_mod_cast hn1
  have hslen : 1 ≤ (List.insertionSort (· ≤ ·) vs).length := by omega
  have hmem : (List.insertionSort (· ≤ ·) vs).getD
      ((List.insertionSort (· ≤ ·) vs).length - 1) 0 ∈ vs :=
    (List.perm_insertionSort (· ≤ ·) vs).mem_iff.mp
      (getD_mem_of_lt _ (by omega))
  obtain ⟨m, hm, hmx⟩ := le_rowMax_of_mem hmem
  refine ⟨_, m, quantileOf_eq vs hne q, hm, ?_⟩
  have hmono : interp (List.insertionSort (· ≤ ·) vs) (q * ((vs.length : ℚ) - 1)) ≤
      interp (List.insertionSort (· ≤ ·) vs)
        (((List.insertionSort (· ≤ ·) vs).length : ℚ) - 1) := by
    apply interp_mono _ hsort (mul_nonneg h0 (by linarith))
    · rw [hlen]
      have := mul_le_mul_of_nonneg_right h1 (by linarith : (0 : ℚ) ≤ (vs.length : ℚ) - 1)
      linarith
    · exact le_refl _
  rw [interp_top _ hslen] at hmono
  exact le_trans hmono hmx

lemma statsRowOf_undefined (cols : List ℕ) (r : List Cell)
    (hr : validCells r cols = []) :
    statsRowOf cols r = ⟨none, none, none, none, none, none, none, none, none⟩ := by
  simp [statsRowOf, hr, rowMin, rowMax, rowMean, sampleVar, quantileOf]

lemma quantileOf_single (x q : ℚ) : quantileOf [x] q = some x := by
  simp [quantileOf, List.insertionSort, List.orderedInsert, interp_zero]

lemma statsRowOf_single (cols : List ℕ) (r : List Cell) (x : ℚ)
    (hx : validCells r cols = [x]) :
    statsRowOf cols r =
      ⟨some x, some x, some x, some x, none, some x, some x, some x, some x⟩ := by
  simp [statsRowOf, hx, rowMin, rowMax, rowMean, sampleVar, quantileOf_single]

/-- C5: calculate_statistics signals the NoSuchVariable usage error (the raised
ValueError) exactly when no column of the table matches the requested variable;
otherwise it returns a statistics row for every timestamp, and a timestamp with
no valid member values yields an all-undefined row, never an error. -/
theorem C5_no_such_variable_iff (df : DataFrame) (vname : String) :
    ((∃ e, calculate_statistics df vname = .error e) ↔ memberColIdx df vname = [])
    ∧ (memberColIdx df vname ≠ [] →
        calculate_statistics df vname =
          .ok (df.rows.map (statsRowOf (memberColIdx df vname))))
    ∧ (∀ r, validCells r (memberColIdx df vname) = [] →
        statsRowOf (memberColIdx df vname) r =
          ⟨none, none, none, none, none, none, none, none, none⟩) := by
  by_cases h : (memberColIdx df vname).isEmpty
  · have hnil : memberColIdx df vname = [] := List.isEmpty_iff.mp h
    refine ⟨⟨fun _ => hnil,
      fun _ => ⟨"No columns found for variable", by simp [calculate_statistics, h]⟩⟩,
      fun hne => absurd hnil hne, fun r hr => statsRowOf_undefined _ r hr⟩
  · have hne : memberColIdx df vname ≠ [] := by
      intro hnil
      rw [hnil] at h
      exact h rfl
    refine ⟨⟨?_, fun hnil => absurd hnil hne⟩,
      fun _ => by simp [calculate_statistics, h], fun r hr => statsRowOf_undefined _ r hr⟩
    rintro ⟨e, he⟩
    simp [calculate_statistics, h] at he

/-- Witness for C5 at concrete inputs: an absent variable errors, and an
all-NaN timestamp yields the all-undefined row. -/
theorem C5_no_such_variable_iff_witness :
    (∃ e, calculate_statistics exStatsDf "wind_speed_80m" = .error e)
    ∧ statsRowOf (memberColIdx exStatsDf "temperature_2m") [none, none, none] =
        ⟨none, none, none, none, none, none, none, none, none⟩ :=
  ⟨(C5_no_such_variable_iff exStatsDf "wind_speed_80m").1.mpr (by decide),
   (C5_no_such_variable_iff exStatsDf "temperature_2m").2.2 [none, none, none] (by decide)⟩

/-- C6: whenever at least one member has a defined value at a timestamp, the
statistics of calculate_statistics at that timestamp satisfy
min ≤ p10 ≤ p25 ≤ median ≤ p75 ≤ p90 ≤ max. -/
theorem C6_percentile_ordering (df : DataFrame) (vname : String)
    (stats : List StatsRow) (hok : calculate_statistics df vname = .ok stats)
    (s : StatsRow) (hs : s ∈ stats) (hdef : s.min.isSome) :
    ∃ a b c d e f g, s.min = some a ∧ s.p10 = some b ∧ s.p25 = some c ∧
      s.median = some d ∧ s.p75 = some e ∧ s.p90 = some f ∧ s.max = some g ∧
      a ≤ b ∧ b ≤ c ∧ c ≤ d ∧ d ≤ e ∧ e ≤ f ∧ f ≤ g := by
  have hc : ¬ (memberColIdx df vname).isEmpty := by
    intro h
    simp [calculate_statistics, h] at hok
  have hstats : stats = df.rows.map (statsRowOf (memberColIdx df vname)) := by
    simp [calculate_statistics, hc] at hok
    exact hok.symm
  subst hstats
  obtain ⟨r, hr, rfl⟩ := List.mem_map.mp hs
  set vs := validCells r (memberColIdx df vname) with hvs
  have hne : vs ≠ [] := by
    intro h0
    have hm : (statsRowOf (memberColIdx df vname) r).min = rowMin vs := rfl
    rw [hm, h0] at hdef
    simp [rowMin] at hdef
  obtain ⟨m, a, hminEq, hq10, hma⟩ :=
    rowMin_le_quantile vs hne (by norm_num : (0:ℚ) ≤ 1/10) (by norm_num)
  obtain ⟨a', b, hq10', hq25, hab⟩ :=
    quantile_le_quantile vs hne (by norm_num : (0:ℚ) ≤ 1/10)
      (by norm_num : (1:ℚ)/10 ≤ 1/4) (by norm_num)
  obtain ⟨b', c, hq25', hq50, hbc⟩ :=
    quantile_le_quantile vs hne (by norm_num : (0:ℚ) ≤ 1/4)
      (by norm_num : (1:ℚ)/4 ≤ 1/2) (by norm_num)
  obtain ⟨c', d, hq50', hq75, hcd⟩ :=
    quantile_le_quantile vs hne (by norm_num : (0:ℚ) ≤ 1/2)
      (by norm_num : (1:ℚ)/2 ≤ 3/4) (by norm_num)
  obtain ⟨d', e, hq75', hq90, hde⟩ :=
    quantile_le_quantile vs hne (by norm_num : (0:ℚ) ≤ 3/4)
      (by norm_num : (3:ℚ)/4 ≤ 9/10) (by norm_num)
  obtain ⟨e', g, hq90', hmaxEq, heg⟩ :=
    quantile_le_rowMax vs hne (by norm_num : (0:ℚ) ≤ 9/10) (by norm_num)
  have ha : a' = a := Option.some.inj (hq10'.symm.trans hq10)
  have hb : b' = b := Option.some.inj (hq25'.symm.trans hq25)
  have hcq : c' = c := Option.some.inj (hq50'.symm.trans hq50)
  have hd : d' = d := Option.some.inj (hq75'.symm.trans hq75)
  have he : e' = e := Option.some.inj (hq90'.symm.trans hq90)
  rw [ha] at hab
  rw [hb] at hbc
  rw [hcq] at hcd
  rw [hd] at hde
  rw [he] at heg
  exact ⟨m, a, b, c, d, e, g, hminEq, hq10, hq25, hq50, hq75, hq90, hmaxEq,
    hma, hab, hbc, hcd, hde, heg⟩

/-- Witness for C6 at a concrete table: the first timestamp of the sample table
has values 3, 1, 2 and its statistics are ordered. -/
theorem C6_percentile_ordering_witness :
    ∃ a b c d e f g,
      (⟨some 1, some 3, some 2, some 2, some 1, some (6/5), some (3/2), some (5/2),
        some (14/5)⟩ : StatsRow).min = some a ∧
      (⟨some 1, some 3, some 2, some 2, some 1, some (6/5), some (3/2), some (5/2),
        some (14/5)⟩ : StatsRow).p10 = some b ∧
      (⟨some 1, some 3, some 2, some 2, some 1, some (6/5), some (3/2), some (5/2),
        some (14/5)⟩ : StatsRow).p25 = some c ∧
      (⟨some 1, some 3, some 2, some 2, some 1, some (6/5), some (3/2), some (5/2),
        some (14/5)⟩ : StatsRow).median = some d ∧
      (⟨some 1, some 3, some 2, some 2, some 1, some (6/5), some (3/2), some (5/2),
        some (14/5)⟩ : StatsRow).p75 = some e ∧
      (⟨some 1, some 3, some 2, some 2, some 1, some (6/5), some (3/2), some (5/2),
        some (14/5)⟩ : StatsRow).p90 = some f ∧
      (⟨some 1, some 3, some 2, some 2, some 1, some (6/5), some (3/2), some (5/2),
        some (14/5)⟩ : StatsRow).max = some g ∧
      a ≤ b ∧ b ≤ c ∧ c ≤ d ∧ d ≤ e ∧ e ≤ f ∧ f ≤ g :=
  C6_percentile_ordering exStatsDf "temperature_2m"
    [⟨some 1, some 3, some 2, some 2, some 1, some (6/5), some (3/2), some (5/2),
      some (14/5)⟩,
     ⟨none, none, none, none, none, none, none, none, none⟩,
     ⟨some 7, some 7, some 7, some 7, none, some 7, some 7, some 7, some 7⟩]
    (by with_unfolding_all decide)
    _ (List.mem_cons_self _ _) (by with_unfolding_all decide)

/-- C9: in calculate_trend all guards are strict, so a trailing-window rate of
exactly +0.5 falls through to the final else branch and is labeled `falling`,
and a rate of exactly +2.0 is labeled `rising` (not `rapidly_rising`). -/
theorem C9_trend_strict_boundaries (series : List ℚ) (window i : ℕ)
    (hi : i < series.length) (hw : window ≤ i) :
    ((series.getD i 0 - series.getD (i - window) 0) / (window : ℚ) = 1/2 →
      (calculate_trend series window).getD i "" = "falling")
    ∧ ((series.getD i 0 - series.getD (i - window) 0) / (window : ℚ) = 2 →
      (calculate_trend series window).getD i "" = "rising") := by
  have hmap : (calculate_trend series window).getD i "" =
      (if i < window then "stable"
       else trendLabel ((series.getD i 0 - series.getD (i - window) 0) / (window : ℚ))) := by
    rw [calculate_trend, List.getD_eq_getElem?_getD, List.getElem?_map,
      List.getElem?_range hi]
    rfl
  rw [hmap, if_neg (not_lt.mpr hw)]
  constructor
  · intro hrate
    rw [hrate, trendLabel]
    norm_num [abs, max_def]
  · intro hrate
    rw [hrate, trendLabel]
    norm_num [abs, max_def]

/-- Witness for C9: the series 0,0,0,3/2 has rate exactly 1/2 at index 3 with
window 3 and is labeled falling; the series 0,0,0,6 has rate exactly 2 there
and is labeled rising. -/
theorem C9_trend_strict_boundaries_witness :
    ((([0, 0, 0, 3/2] : List ℚ).getD 3 0 - ([0, 0, 0, 3/2] : List ℚ).getD 0 0) /
        ((3 : ℕ) : ℚ) = 1/2 ∧
      (calculate_trend [0, 0, 0, 3/2] 3).getD 3 "" = "falling")
    ∧ ((([0, 0, 0, 6] : List ℚ).getD 3 0 - ([0, 0, 0, 6] : List ℚ).getD 0 0) /
        ((3 : ℕ) : ℚ) = 2 ∧
      (calculate_trend [0, 0, 0, 6] 3).getD 3 "" = "rising") :=
  ⟨⟨by norm_num, (C9_trend_strict_boundaries [0, 0, 0, 3/2] 3 3 (by decide)
      (by decide)).1 (by norm_num)⟩,
   ⟨by norm_num, (C9_trend_strict_boundaries [0, 0, 0, 6] 3 3 (by decide)
      (by decide)).2 (by norm_num)⟩⟩

/-- C10: at a timestamp where exactly one member has a defined value, all
order statistics and the mean equal that value, while std is undefined because
the ddof-1 sample standard deviation needs at least two defined values. -/
theorem C10_single_member_stats (df : DataFrame) (vname : String)
    (stats : List StatsRow) (hok : calculate_statistics df vname = .ok stats)
    (i : ℕ) (hi : i < df.rows.length) (x : ℚ)
    (hx : validCells (df.rows.getD i []) (memberColIdx df vname) = [x]) :
    stats.getD i ⟨none, none, none, none, none, none, none, none, none⟩ =
      ⟨some x, some x, some x, some x, none, some x, some x, some x, some x⟩ := by
  have hc : ¬ (memberColIdx df vname).isEmpty := by
    intro h
    simp [calculate_statistics, h] at hok
  have hstats : stats = df.rows.map (statsRowOf (memberColIdx df vname)) := by
    simp [calculate_statistics, hc] at hok
    exact hok.symm
  subst hstats
  have hget : (df.rows.map (statsRowOf (memberColIdx df vname))).getD i
      ⟨none, none, none, none, none, none, none, none, none⟩ =
      statsRowOf (memberColIdx df vname) (df.rows.getD i []) := by
    rw [List.getD_eq_getElem?_getD, List.getElem?_map,
      List.getD_eq_getElem?_getD, List.getElem?_eq_getElem hi]
    rfl
  rw [hget]
  exact statsRowOf_single _ _ _ hx

/-- Witness for C10: the third timestamp of the sample table has exactly the
one defined value 7, whose statistics collapse to 7 with undefined std. -/
theorem C10_single_member_stats_witness :
    ([⟨some 1, some 3, some 2, some 2, some 1, some (6/5), some (3/2), some (5/2),
        some (14/5)⟩,
      ⟨none, none, none, none, none, none, none, none, none⟩,
      (⟨some 7, some 7, some 7, some 7, none, some 7, some 7, some 7, some 7⟩ :
        StatsRow)] : List StatsRow).getD 2
        ⟨none, none, none, none, none, none, none, none, none⟩ =
      ⟨some 7, some 7, some 7, some 7, none, some 7, some 7, some 7, some 7⟩ :=
  C10_single_member_stats exStatsDf "temperature_2m" _
    (by with_unfolding_all decide) 2 (by decide) 7 (by decide)

/-- C1: the code divides by `len(cols)` and treats NaN members as failing the
predicate: at a timestamp with members [NaN, 5] and predicate `x > 0`, it
returns 1/2 where the spec's definition requires 1, and at an all-NaN
timestamp it returns 0 where the spec requires undefined. -/
theorem C1_probability_counts_nan_in_denominator :
    calculate_probability exProbDf "temperature_2m" (fun x => decide (0 < x)) =
      .ok [1/2, 0]
    ∧ probabilitySpecified exProbDf "temperature_2m" (fun x => decide (0 < x)) =
      .ok [some 1, none] := by
  constructor
  · with_unfolding_all decide
  · with_unfolding_all decide

/-- C2: _aggregate_daily_snow is exactly filter-to-day, per-member
sum/max, then cross-member average; on the sample day this yields total 10 and
max hourly 10, while the inverted average-then-aggregate order would report
max hourly 5. -/
theorem C2_aggregate_then_average :
    (∀ hdf date, aggregate_daily_snow hdf date = dailySnowAggThenAvg hdf date)
    ∧ aggregate_daily_snow exHourly 0 = (10, 10)
    ∧ dailySnowAvgThenAgg exHourly 0 = (10, 5) := by
  refine ⟨?_, by with_unfolding_all decide, by with_unfolding_all decide⟩
  intro hdf date
  unfold aggregate_daily_snow dailySnowAggThenAvg
  set dayRows := (hdf.rows.filter fun p => p.1 == date).map Prod.snd with hdr
  by_cases h1 : dayRows.isEmpty
  · simp [h1]
  · simp only [h1, if_false, Bool.false_eq_true]
    set cols := snowColIdx hdf with hcols
    by_cases h2 : cols.isEmpty
    · simp [h2]
    · simp only [h2, if_false, Bool.false_eq_true]
      set pm := cols.filterMap fun j =>
        match colValid dayRows j with
        | [] => none
        | v :: vs => some (((v :: vs).sum : ℚ), vs.foldl max v) with hpm
      have hfst : pm.map Prod.fst = cols.filterMap fun j =>
          match colValid dayRows j with
          | [] => none
          | v :: vs => some ((v :: vs).sum : ℚ) := by
        rw [hpm, List.map_filterMap]
        apply List.filterMap_congr
        intro j _
        cases colValid dayRows j <;> simp
      have hsnd : pm.map Prod.snd = cols.filterMap fun j =>
          match colValid dayRows j with
          | [] => none
          | v :: vs => some (vs.foldl max v) := by
        rw [hpm, List.map_filterMap]
        apply List.filterMap_congr
        intro j _
        cases colValid dayRows j <;> simp
      rw [← hfst, ← hsnd]
      simp [List.isEmpty_iff, List.length_map]

/-- C3: compare_models computes `cv = std/|mean|` with no guard; with two
models agreeing on the value 0 this is the float 0/0 = NaN, and
get_comparison_dict propagates that NaN into the per-timestamp result. -/
theorem C3_cv_nan_propagates :
    compare_models exCmpDf "temperature_2m" =
      .ok ([⟨some 0, some 0, some 0, some 0, some 0, .nan⟩],
           [("ecmwf_ifs025", [some 0]), ("gem_global", [some 0])])
    ∧ coefficientVariationAt [⟨some 0, some 0, some 0, some 0, some 0, .nan⟩] 0 =
      .nan := by
  constructor
  · with_unfolding_all decide
  · rfl

/-- C4 counterexample: identify_outliers invoked with a single model raises
nothing and silently returns an all-false outlier row (the z-score is NaN). -/
theorem C4_outliers_single_model_counterexample :
    identify_outliers [("ecmwf_ifs025", [some 5])] (3/2) =
      [("ecmwf_ifs025", [false])] := by
  with_unfolding_all decide

/-- C4 amended: compare_models raises the insufficient-models ValueError
exactly when fewer than 2 models are identified, but identify_outliers
performs no such check: with a single model it returns all-false outlier
flags for every timestamp. -/
theorem C4_insufficient_models_check (df : DataFrame) (vname : String) :
    ((∃ e, compare_models df vname = .error e) ↔
      (identifyModels df vname).length < 2)
    ∧ (∀ name series thr,
        identify_outliers [(name, series)] thr =
          [(name, series.map fun _ => false)]) := by
  constructor
  · by_cases h : (identifyModels df vname).length < 2
    · exact ⟨fun _ => h, fun _ =>
        ⟨"Need at least 2 models for comparison", by simp [compare_models, h]⟩⟩
    · constructor
      · rintro ⟨e, he⟩
        simp [compare_models, h] at he
      · intro h2
        exact absurd h2 h
  · intro name series thr
    unfold identify_outliers
    simp only [List.head?_cons, Option.map_some', Option.getD_some, List.map_cons,
      List.map_nil]
    have h : (List.range series.length).map (fun i =>
        outlierFlag (series.getD i none)
          (rowMean (meansAt [(name, series)] i))
          (sampleVar (meansAt [(name, series)] i)) thr) =
        series.map fun _ => false := by
      have hcong : ∀ i ∈ List.range series.length,
          outlierFlag (series.getD i none)
            (rowMean (meansAt [(name, series)] i))
            (sampleVar (meansAt [(name, series)] i)) thr = false := by
        intro i _
        cases hx : series[i]? with
        | none => simp [outlierFlag, meansAt, rowMean, sampleVar, hx]
        | some v =>
          cases v with
          | none => simp [outlierFlag, meansAt, rowMean, sampleVar, hx]
          | some w => simp [outlierFlag, meansAt, rowMean, sampleVar, hx]
      rw [List.map_congr_left hcong]
      simp [List.map_const']
    rw [h]

/-- Witness for C4: the comparison table has two models so compare_models does
not error, while a single-model table makes it raise; identify_outliers on one
model stays silent. -/
theorem C4_insufficient_models_check_witness :
    ((identifyModels exProbDf "temperature_2m").length < 2
      ∧ (∃ e, compare_models exProbDf "temperature_2m" = .error e))
    ∧ identify_outliers [("gem_global", [some 5, none])] 2 =
        [("gem_global", [false, false])] :=
  ⟨⟨by decide, (C4_insufficient_models_check exProbDf "temperature_2m").1.mpr
      (by decide)⟩,
   (C4_insufficient_models_check exProbDf "temperature_2m").2 "gem_global"
     [some 5, none] 2⟩

/-- C7: for a fixed nonnegative steepness α and any center β, snow_probability
is monotonically non-increasing in the wet-bulb temperature and equals exactly
1/2 at Tw = β. -/
theorem C7_snow_probability_monotone (alpha beta : ℝ) (ha : 0 ≤ alpha) :
    (∀ t1 t2, t1 ≤ t2 →
      snow_probability t2 alpha beta ≤ snow_probability t1 alpha beta)
    ∧ snow_probability beta alpha beta = 1/2 := by
  constructor
  · intro t1 t2 h12
    unfold snow_probability
    have harg : alpha * (t1 - beta) ≤ alpha * (t2 - beta) :=
      mul_le_mul_of_nonneg_left (by linarith) ha
    have e1 : Real.exp (alpha * (t1 - beta)) ≤ Real.exp (alpha * (t2 - beta)) :=
      Real.exp_le_exp.mpr harg
    have p1 : (0:ℝ) < 1 + Real.exp (alpha * (t1 - beta)) := by positivity
    exact one_div_le_one_div_of_le p1 (by linarith)
  · unfold snow_probability
    rw [sub_self, mul_zero, Real.exp_zero]
    norm_num

/-- Witness for C7 at the default parameters α = 1.2, β = 0.5. -/
theorem C7_snow_probability_monotone_witness :
    (0:ℝ) ≤ 6/5
    ∧ snow_probability (1/2) (6/5) (1/2) = 1/2
    ∧ snow_probability 3 (6/5) (1/2) ≤ snow_probability 0 (6/5) (1/2) :=
  ⟨by norm_num,
   (C7_snow_probability_monotone (6/5) (1/2) (by norm_num)).2,
   (C7_snow_probability_monotone (6/5) (1/2) (by norm_num)).1 0 3 (by norm_num)⟩

/-- C8: calculate_snowfall is a total function of its finite real inputs and
its result is never negative; moreover, with negative precipitation and any
physically sensible SLR band (0 < r_min ≤ r_max) the clamped result is
exactly 0, for every temperature, humidity, duration and remaining
parameters. -/
theorem C8_snowfall_total_nonneg (temp rh precip : ℝ) (duration : Option ℝ)
    (alpha beta rmin rmax tpeak sigma gamma delta : ℝ) :
    0 ≤ calculate_snowfall temp rh precip duration alpha beta rmin rmax tpeak
        sigma gamma delta
    ∧ (precip < 0 → 0 < rmin → rmin ≤ rmax →
        calculate_snowfall temp rh precip duration alpha beta rmin rmax tpeak
          sigma gamma delta = 0) := by
  constructor
  · exact le_max_right _ _
  · intro hp hrmin hrr
    unfold calculate_snowfall
    apply max_eq_right
    have hpsnow : 0 < snow_probability (wet_bulb_temperature temp rh) alpha beta := by
      unfold snow_probability
      positivity
    have hslr : 0 < base_slr temp rmin rmax tpeak sigma := by
      unfold base_slr
      have hexp : (0:ℝ) ≤ Real.exp (-(temp - tpeak) ^ 2 / (2 * sigma ^ 2)) :=
        le_of_lt (Real.exp_pos _)
      nlinarith
    have hfrh : (0:ℝ) < humidity_factor rh gamma := by
      unfold humidity_factor
      have h1 : (0.8:ℝ) ≤ max (1 + gamma * (50 - min (max rh 0) 100) / 50) 0.8 :=
        le_max_right _ _
      have h2 : (0.8:ℝ) ≤
          min (max (1 + gamma * (50 - min (max rh 0) 100) / 50) 0.8) 1.2 :=
        le_min h1 (by norm_num)
      linarith
    generalize hFR : (match duration with
        | some d => rate_factor precip d delta
        | none => (1:ℝ)) = FR
    have hfrate : 0 < FR := by
      rw [← hFR]
      cases duration with
      | none => show (0:ℝ) < 1; norm_num
      | some d =>
        show (0:ℝ) < 1 / (1 + delta * (if 0 < d ∧ 0 < precip then precip / d else 0))
        have hcond : ¬ (0 < d ∧ 0 < precip) := by
          rintro ⟨_, hpp⟩
          linarith
        rw [if_neg hcond]
        norm_num
    have h1 : 0 < base_slr temp rmin rmax tpeak sigma *
        humidity_factor rh gamma * FR := by positivity
    have h2 : precip * (base_slr temp rmin rmax tpeak sigma *
        humidity_factor rh gamma * FR) *
        snow_probability (wet_bulb_temperature temp rh) alpha beta < 0 :=
      mul_neg_of_neg_of_pos (mul_neg_of_neg_of_pos hp h1) hpsnow
    linarith

/-- Witness for C8: negative precipitation with the default parameters yields
exactly 0, at T = −4 °C, RH = 85 %, P = −10 mm, H = 12 h. -/
theorem C8_snowfall_total_nonneg_witness :
    ((-10:ℝ) < 0 ∧ (0:ℝ) < 6 ∧ (6:ℝ) ≤ 18)
    ∧ calculate_snowfall (-4) 85 (-10) (some 12) (6/5) (1/2) 6 18 (-12) 7 (1/5)
        (1/20) = 0 :=
  ⟨⟨by norm_num, by norm_num, by norm_num⟩,
   (C8_snowfall_total_nonneg (-4) 85 (-10) (some 12) (6/5) (1/2) 6 18 (-12) 7
      (1/5) (1/20)).2 (by norm_num) (by norm_num) (by norm_num)⟩
